import Mathlib

/-!
Verification of the core logic of the URL summarizer dashboard
(`main.py`): the link filter `filter_links`, the content-acquisition
dispatch `load_docs`, and the statistics computed by the result view.

Strings are modelled as lists of characters (`PStr`).  The external
collaborators (the structured video loader, the command-line fallback
tool, the generic webpage loader, the URL validator and the remote
summarization chain) are modelled as parameters of the run
environment: `none` (or a `Bool`) stands for the call raising an
exception or rejecting, `some v` for the call returning `v`.
-/

namespace Summarizer

/-- Python strings, modelled as lists of characters. -/
abbrev PStr := List Char

/-- ASCII whitespace as recognised by Python's default `str.split()`
and `str.strip()`. -/
def pyIsSpace (c : Char) : Bool :=
  c == ' ' || c == '\t' || c == '\n' || c == '\r' || c == '\x0b' || c == '\x0c'

/-- The character set of the cleanup call `link.strip(".,)")`. -/
def punctB (c : Char) : Bool :=
  c == '.' || c == ',' || c == ')'

/-- Python's `s.strip(...)`: removes characters satisfying `p` from
BOTH ends of the string. -/
def pyStrip (p : Char → Bool) (l : PStr) : PStr :=
  ((l.dropWhile p).reverse.dropWhile p).reverse

/-- Python's `s.lower()` (ASCII case folding, which covers every
character the denylist test can be sensitive to here). -/
def pyLower (l : PStr) : PStr := l.map Char.toLower

/-- Python's substring test `needle in hay`. -/
def pyIn (needle : PStr) : PStr → Bool
  | [] => needle.isPrefixOf []
  | c :: t => needle.isPrefixOf (c :: t) || pyIn needle t

/-- The fixed denylist in `filter_links`. -/
def socials : List PStr :=
  ["facebook.com".data, "instagram.com".data, "twitter.com".data,
   "linkedin.com".data, "youtube.com".data]

/-- The drop condition in `filter_links`:
`any(social in link.lower() for social in [...])`. -/
def isSocial (link : PStr) : Bool :=
  socials.any (fun s => pyIn s (pyLower link))

/-- The cleanup `link.strip(".,)")` applied to each retained link. -/
def stripPunct (link : PStr) : PStr := pyStrip punctB link

/-- `filter_links` from `main.py`: drop denylisted links, strip
punctuation from the ends of each retained link. -/
def filter_links : List PStr → List PStr
  | [] => []
  | link :: rest =>
    if isSocial link then filter_links rest
    else stripPunct link :: filter_links rest

/-- `langchain.schema.Document` as used by `main.py`: the page content
plus the `source` entry of the metadata. -/
structure Document where
  page_content : PStr
  source : PStr
  deriving DecidableEq

/-- Which acquisition path `load_docs` takes. -/
inductive AcqPath where
  | video
  | web
  deriving DecidableEq

/-- The dispatch condition of `load_docs`:
`if "youtube.com" in url or "youtu.be" in url`. -/
def classify (url : PStr) : AcqPath :=
  if pyIn "youtube.com".data url || pyIn "youtu.be".data url then
    AcqPath.video
  else
    AcqPath.web

/-- Results of the external acquisition collaborators for one URL.
`primary` is `YoutubeLoader...load()` (`none` = the call raised);
`fallback` is the `yt-dlp` subprocess (`none` = `subprocess.run`
raised, `some out` = it completed with captured stdout `out`; note
that a nonzero exit code does not raise, it just yields whatever
stdout was captured); `web` is `UnstructuredURLLoader...load()`. -/
structure LoadEnv where
  primary : Option (List Document)
  fallback : Option PStr
  web : Option (List Document)
  deriving DecidableEq

/-- What `load_docs` produced and did: the returned documents (`none`
models returning Python `None`), whether it called `st.error` itself,
and which acquisition path ran. -/
structure LoadResult where
  docs : Option (List Document)
  errorShown : Bool
  videoTried : Bool
  webTried : Bool
  deriving DecidableEq

/-- `load_docs` from `main.py`, with the external loader calls
supplied by `env`. -/
def load_docs (url : PStr) (env : LoadEnv) : LoadResult :=
  match classify url with
  | AcqPath.video =>
    match env.primary with
    | some ds => ⟨some ds, false, true, false⟩
    | none =>
      match env.fallback with
      | some out =>
        let yt_text := pyStrip pyIsSpace out
        if yt_text = [] then ⟨none, false, true, false⟩
        else ⟨some [⟨yt_text, url⟩], false, true, false⟩
      | none => ⟨none, true, true, false⟩
  | AcqPath.web =>
    match env.web with
    | some ds => ⟨some ds, false, false, true⟩
    | none => ⟨none, true, false, true⟩

/-- Attempt to match the regex `https?://\S+` at the start of `l`:
on success, the matched text and the remainder of the input. -/
def matchHttpAt (l : PStr) : Option (PStr × PStr) :=
  if "https://".data.isPrefixOf l then
    match (l.drop 8).takeWhile (fun c => !pyIsSpace c) with
    | [] => none
    | body =>
      some ("https://".data ++ body, (l.drop 8).dropWhile (fun c => !pyIsSpace c))
  else if "http://".data.isPrefixOf l then
    match (l.drop 7).takeWhile (fun c => !pyIsSpace c) with
    | [] => none
    | body =>
      some ("http://".data ++ body, (l.drop 7).dropWhile (fun c => !pyIsSpace c))
  else none

/-- The left-to-right scan of `re.findall(r'https?://\S+', text)`: on
a match, emit it and continue after it, otherwise move one character
forward.  `fuel` bounds the recursion; every step consumes at least
one character of the input, so `fuel = l.length` is always enough. -/
def findallAux : Nat → PStr → List PStr
  | 0, _ => []
  | _, [] => []
  | fuel + 1, c :: t =>
    match matchHttpAt (c :: t) with
    | some (m, rest) => m :: findallAux fuel rest
    | none => findallAux fuel t

/-- `re.findall(r'https?://\S+', text)` from the button handler. -/
def findall (text : PStr) : List PStr := findallAux text.length text

/-- One step of Python's no-argument `str.split()`: skip leading
whitespace, emit the next maximal non-whitespace run, continue.
`fuel` bounds the recursion as in `findallAux`. -/
def pySplitAux : Nat → PStr → List PStr
  | 0, _ => []
  | fuel + 1, l =>
    match l.dropWhile pyIsSpace with
    | [] => []
    | c :: rest =>
      (c :: rest.takeWhile (fun x => !pyIsSpace x)) ::
        pySplitAux fuel (rest.dropWhile (fun x => !pyIsSpace x))

/-- Python's `s.split()`: split on whitespace runs, no empty tokens. -/
def pySplit (l : PStr) : List PStr := pySplitAux l.length l

/-- Single-scan count of the maximal non-whitespace runs of a string;
`prev` records whether the previous character was non-whitespace. -/
def countTokensAux (prev : Bool) : PStr → Nat
  | [] => 0
  | c :: rest =>
    (if !pyIsSpace c && !prev then 1 else 0) + countTokensAux (!pyIsSpace c) rest

/-- The number of whitespace-delimited tokens of a string. -/
def countTokens (l : PStr) : Nat := countTokensAux false l

/-- The sidebar options that affect the checked logic. -/
structure Options where
  showLinks : Bool
  deriving DecidableEq

/-- The external collaborators of one button press: the result of
`validators.url(generic_url)`, the loader environment, and the
summarization chain output (`none` = the chain raised). -/
structure RunEnv where
  urlValid : Bool
  load : LoadEnv
  chain : Option PStr
  deriving DecidableEq

/-- Everything one press of `Generate Summary` displays, plus whether
the acquirer (`load_docs`) was invoked.  `acqFailureShown` is the
`"No content found"` message of the `else` branch on `if docs:`. -/
structure RunResult where
  acquirerCalled : Bool
  inlineErrorShown : Bool
  acqFailureShown : Bool
  apiErrorShown : Bool
  summaryShown : Option PStr
  linksDisplayed : Option (List PStr)
  wordCountStat : Option Nat
  linkCountStat : Option Nat
  deriving DecidableEq

/-- `" ".join([doc.page_content for doc in docs])`. -/
def joinTexts (ds : List Document) : PStr :=
  List.intercalate " ".data (ds.map (fun d => d.page_content))

/-- The `Generate Summary` button handler from `main.py`. -/
def runApp (url : PStr) (opts : Options) (env : RunEnv) : RunResult :=
  if pyStrip pyIsSpace url = [] then
    ⟨false, true, false, false, none, none, none, none⟩
  else if env.urlValid = false then
    ⟨false, true, false, false, none, none, none, none⟩
  else
    match (load_docs url env.load).docs with
    | some (d :: ds) =>
      let allText := joinTexts (d :: ds)
      let rawLinks := findall allText
      let links := if opts.showLinks = true then filter_links rawLinks else rawLinks
      match env.chain with
      | some output_summary =>
        ⟨true, false, false, false, some output_summary,
         if opts.showLinks = true ∧ links ≠ [] then some links else none,
         some (pySplit output_summary).length,
         some (if links = [] then 0 else links.length)⟩
      | none => ⟨true, false, false, true, none, none, none, none⟩
    | some [] => ⟨true, false, true, false, none, none, none, none⟩
    | none => ⟨true, false, true, false, none, none, none, none⟩

/-- Modelled from the spec: the spec's classification rule refers to
"the URL's host", which the code never computes.  Per standard URL
syntax, the host is the authority text after `://` and before the
next `/`, `?` or `#`. -/
def hostTail : PStr → Option PStr
  | [] => none
  | c :: t =>
    if "://".data.isPrefixOf (c :: t) then some ((c :: t).drop 3)
    else hostTail t

/-- Modelled from the spec: host extraction for the classification
rule the spec states (see `hostTail`). -/
def urlHost (url : PStr) : PStr :=
  match hostTail url with
  | none => []
  | some rest => rest.takeWhile (fun c => !(c == '/' || c == '?' || c == '#'))

/-- Modelled from the spec: "a known video-platform pattern" for the
URL's host — the hosts of the video platform the code's loaders
support (YouTube). -/
def isVideoPlatformHost (host : PStr) : Bool :=
  host == "youtube.com".data || host == "www.youtube.com".data ||
  host == "m.youtube.com".data || host == "youtu.be".data

/-- The cleanup rule as the claim words it: remove the characters
`.`, `,`, `)` from the END of the string only (for comparison with
the code's two-sided `stripPunct`). -/
def rstripPunct (l : PStr) : PStr := (l.reverse.dropWhile punctB).reverse

/-! ## Helper lemmas -/

theorem pyIn_iff (needle hay : PStr) : pyIn needle hay = true ↔ needle <:+: hay := by
  induction hay with
  | nil => simp [pyIn]
  | cons c t ih => simp [pyIn, ih, List.infix_cons_iff]

theorem pyStrip_prefix_dropWhile (p : Char → Bool) (l : PStr) :
    pyStrip p l <+: l.dropWhile p := by
  have h1 : (l.dropWhile p).reverse.dropWhile p <:+ (l.dropWhile p).reverse :=
    List.dropWhile_suffix p
  have h2 := List.reverse_prefix.mpr h1
  simpa [pyStrip] using h2

theorem pyStrip_within (p : Char → Bool) (l : PStr) : pyStrip p l <:+: l :=
  (pyStrip_prefix_dropWhile p l).isInfix.trans (List.dropWhile_suffix p).isInfix

theorem pyLower_within {l₁ l₂ : PStr} (h : l₁ <:+: l₂) :
    pyLower l₁ <:+: pyLower l₂ :=
  List.IsInfix.map Char.toLower h

theorem isSocial_stripPunct {link : PStr} (h : isSocial link = false) :
    isSocial (stripPunct link) = false := by
  rw [isSocial, List.any_eq_false] at h ⊢
  intro s hs hcon
  apply h s hs
  rw [pyIn_iff] at hcon ⊢
  exact hcon.trans (pyLower_within (pyStrip_within punctB link))

theorem filter_links_eq (links : List PStr) :
    filter_links links = (links.filter (fun l => !isSocial l)).map stripPunct := by
  induction links with
  | nil => rfl
  | cons link rest ih =>
    by_cases h : isSocial link
    · simp [filter_links, h, ih, List.filter_cons]
    · simp [filter_links, h, ih, List.filter_cons]

theorem dropWhile_dropWhile (p : Char → Bool) (l : PStr) :
    (l.dropWhile p).dropWhile p = l.dropWhile p := by
  induction l with
  | nil => rfl
  | cons c t ih =>
    by_cases h : p c
    · simp [List.dropWhile_cons, h, ih]
    · simp [List.dropWhile_cons, h]

theorem dropWhile_fixed_of_prefix {p : Char → Bool} {l m : PStr}
    (hl : l.dropWhile p = l) (hm : m <+: l) : m.dropWhile p = m := by
  cases m with
  | nil => rfl
  | cons c r =>
    cases l with
    | nil => simp at hm
    | cons c' t =>
      rcases List.cons_prefix_cons.mp hm with ⟨hc, -⟩
      have hpc : p c' = false := by
        by_contra hb
        rw [Bool.not_eq_false] at hb
        rw [List.dropWhile_cons_of_pos hb] at hl
        have hle := (List.dropWhile_suffix (l := t) p).sublist.length_le
        rw [hl] at hle
        simp at hle
      subst hc
      simp [List.dropWhile_cons, hpc]

theorem pyStrip_idem (p : Char → Bool) (l : PStr) :
    pyStrip p (pyStrip p l) = pyStrip p l := by
  have hAfix : (l.dropWhile p).dropWhile p = l.dropWhile p := dropWhile_dropWhile p l
  have h1 : (pyStrip p l).dropWhile p = pyStrip p l :=
    dropWhile_fixed_of_prefix hAfix (pyStrip_prefix_dropWhile p l)
  calc pyStrip p (pyStrip p l)
      = (((pyStrip p l).dropWhile p).reverse.dropWhile p).reverse := rfl
    _ = ((pyStrip p l).reverse.dropWhile p).reverse := by rw [h1]
    _ = ((((l.dropWhile p).reverse.dropWhile p).reverse.reverse).dropWhile p).reverse := rfl
    _ = (((l.dropWhile p).reverse.dropWhile p).dropWhile p).reverse := by
        rw [List.reverse_reverse]
    _ = ((l.dropWhile p).reverse.dropWhile p).reverse := by rw [dropWhile_dropWhile]
    _ = pyStrip p l := rfl

theorem pyStrip_decomp (p : Char → Bool) (l : PStr) :
    ∃ a b, (∀ c ∈ a, p c = true) ∧ (∀ c ∈ b, p c = true) ∧
      l = a ++ pyStrip p l ++ b := by
  have key : ∀ m : PStr,
      m = (m.reverse.dropWhile p).reverse ++ (m.reverse.takeWhile p).reverse := by
    intro m
    conv_lhs => rw [← List.reverse_reverse m]
    rw [← List.reverse_append, List.takeWhile_append_dropWhile]
  refine ⟨l.takeWhile p, ((l.dropWhile p).reverse.takeWhile p).reverse, ?_, ?_, ?_⟩
  · intro c hc; exact List.mem_takeWhile_imp hc
  · intro c hc
    rw [List.mem_reverse] at hc
    exact List.mem_takeWhile_imp hc
  · conv_lhs => rw [← List.takeWhile_append_dropWhile p l]
    rw [key (l.dropWhile p)]
    simp [pyStrip, List.append_assoc]

theorem length_dropWhile_le (p : Char → Bool) (l : PStr) :
    (l.dropWhile p).length ≤ l.length :=
  (List.dropWhile_suffix p).sublist.length_le

theorem dropWhile_head_false {p : Char → Bool} {l : PStr} {c : Char} {r : PStr}
    (h : l.dropWhile p = c :: r) : p c = false := by
  induction l with
  | nil => simp at h
  | cons a t ih =>
    by_cases hp : p a
    · rw [List.dropWhile_cons_of_pos hp] at h
      exact ih h
    · rw [List.dropWhile_cons_of_neg hp] at h
      cases h
      simpa using hp

theorem countTokensAux_dropSpaces (l : PStr) :
    countTokensAux false l = countTokensAux false (l.dropWhile pyIsSpace) := by
  induction l with
  | nil => rfl
  | cons c t ih =>
    by_cases h : pyIsSpace c
    · simp [countTokensAux, h, List.dropWhile_cons, ih]
    · simp [List.dropWhile_cons, h]

theorem countTokensAux_true_word (l : PStr) :
    countTokensAux true l =
      countTokensAux false (l.dropWhile (fun x => !pyIsSpace x)) := by
  induction l with
  | nil => rfl
  | cons c t ih =>
    by_cases h : pyIsSpace c
    · simp [countTokensAux, h, List.dropWhile_cons]
    · simp [countTokensAux, h, List.dropWhile_cons, ih]

theorem pySplitAux_length (fuel : Nat) : ∀ l : PStr, l.length ≤ fuel →
    (pySplitAux fuel l).length = countTokens l := by
  induction fuel with
  | zero =>
    intro l hl
    have hnil : l = [] := List.length_eq_zero.mp (Nat.le_zero.mp hl)
    subst hnil
    rfl
  | succ fuel ih =>
    intro l hl
    rw [pySplitAux]
    cases hd : l.dropWhile pyIsSpace with
    | nil =>
      rw [countTokens, countTokensAux_dropSpaces, hd]
      rfl
    | cons c rest =>
      have hc : pyIsSpace c = false := dropWhile_head_false hd
      have hlen : (c :: rest).length ≤ l.length := by
        rw [← hd]
        exact length_dropWhile_le pyIsSpace l
      have hrest : (rest.dropWhile (fun x => !pyIsSpace x)).length ≤ fuel := by
        have h1 := length_dropWhile_le (fun x => !pyIsSpace x) rest
        simp [List.length_cons] at hlen
        omega
      simp only [List.length_cons]
      rw [ih _ hrest]
      rw [countTokens, countTokens, countTokensAux_dropSpaces l, hd]
      simp [countTokensAux, hc, countTokensAux_true_word]
      omega

theorem pySplit_length_countTokens (l : PStr) :
    (pySplit l).length = countTokens l :=
  pySplitAux_length l.length l (Nat.le_refl _)

theorem count_le_count_map_py (l : List PStr) (f : PStr → PStr) (x : PStr) :
    l.count x ≤ (l.map f).count (f x) := by
  induction l with
  | nil => simp
  | cons a t ih =>
    rw [List.map_cons, List.count_cons, List.count_cons]
    have h1 : (if a == x then 1 else 0) ≤ (if f a == f x then 1 else 0) := by
      by_cases h : a == x
      · have hax : a = x := by simpa using h
        subst hax
        simp
      · simp [h]
    exact Nat.add_le_add ih h1

/-! ## Claim theorems -/

/-- C3: for every input sequence of strings, every string in the
output of `filter_links` has a lowercase form containing none of the
five denylisted substrings `facebook.com`, `instagram.com`,
`twitter.com`, `linkedin.com`, `youtube.com`. -/
theorem C3_output_denylist_free (links : List PStr) (x : PStr)
    (hx : x ∈ filter_links links) (s : PStr) (hs : s ∈ socials) :
    pyIn s (pyLower x) = false := by
  rw [filter_links_eq] at hx
  rcases List.mem_map.mp hx with ⟨y, hy, rfl⟩
  rcases List.mem_filter.mp hy with ⟨-, hky⟩
  have hy' : isSocial y = false := by simpa using hky
  have hfree := isSocial_stripPunct hy'
  rw [isSocial, List.any_eq_false] at hfree
  simpa using hfree s hs

theorem C3_witness :
    ("https://good.org/y".data ∈ filter_links ["https://good.org/y)".data]) ∧
      pyIn "facebook.com".data (pyLower "https://good.org/y".data) = false :=
  ⟨by decide,
   C3_output_denylist_free ["https://good.org/y)".data] "https://good.org/y".data
     (by decide) "facebook.com".data (by decide)⟩

/-- C4 (counterexample to the claim as stated): the code's cleanup is
Python's `strip(".,)")`, which removes the punctuation characters from
BOTH ends of a retained entry, not only from its end: on the input
`[")https://example.com/page."]` the retained entry loses its leading
`)` as well as its trailing `.`, whereas removal of trailing
characters only would keep the leading `)`. -/
theorem C4_counterexample :
    filter_links [")https://example.com/page.".data] =
        ["https://example.com/page".data] ∧
      rstripPunct ")https://example.com/page.".data =
        ")https://example.com/page".data := by
  decide

/-- C4 (amended): each retained entry of `filter_links` equals the
corresponding input string with the characters `.`, `,`, `)` removed
from BOTH of its ends (the input splits as a punctuation-only prefix,
then the retained entry, then a punctuation-only suffix); the worked
example of the claim holds as given. -/
theorem C4_strip_both_ends (links : List PStr) (x : PStr)
    (hx : x ∈ links) (hk : isSocial x = false) :
    stripPunct x ∈ filter_links links ∧
      (∃ a b, (∀ c ∈ a, punctB c = true) ∧ (∀ c ∈ b, punctB c = true) ∧
        x = a ++ stripPunct x ++ b) ∧
      filter_links ["https://example.com/page.".data, "https://facebook.com/x".data,
          "https://good.org/y)".data] =
        ["https://example.com/page".data, "https://good.org/y".data] := by
  refine ⟨?_, pyStrip_decomp punctB x, by decide⟩
  rw [filter_links_eq]
  exact List.mem_map.mpr ⟨x, List.mem_filter.mpr ⟨hx, by simp [hk]⟩, rfl⟩

theorem C4_witness :
    stripPunct "https://example.com/page.".data ∈
        filter_links ["https://example.com/page.".data, "https://facebook.com/x".data,
          "https://good.org/y)".data] ∧
      (∃ a b, (∀ c ∈ a, punctB c = true) ∧ (∀ c ∈ b, punctB c = true) ∧
        "https://example.com/page.".data =
          a ++ stripPunct "https://example.com/page.".data ++ b) ∧
      filter_links ["https://example.com/page.".data, "https://facebook.com/x".data,
          "https://good.org/y)".data] =
        ["https://example.com/page".data, "https://good.org/y".data] :=
  C4_strip_both_ends _ _ (by decide) (by decide)

/-- C5: `filter_links` preserves the relative order of the retained
entries — the output is the `stripPunct`-image of an order-preserving
selection (a sublist) of the input — and performs no deduplication:
a non-denylisted string occurring `n` times in the input contributes
at least `n` occurrences of its cleaned form to the output. -/
theorem C5_order_no_dedup (links : List PStr) :
    (∃ kept : List PStr, List.Sublist kept links ∧
        filter_links links = kept.map stripPunct) ∧
      ∀ x, isSocial x = false →
        links.count x ≤ (filter_links links).count (stripPunct x) := by
  refine ⟨⟨links.filter (fun l => !isSocial l), List.filter_sublist links,
    filter_links_eq links⟩, ?_⟩
  intro x hx
  rw [filter_links_eq]
  calc links.count x
      = ((links.filter (fun l => !isSocial l)).count x) := by
        rw [List.count_filter]
        simp [hx]
    _ ≤ ((links.filter (fun l => !isSocial l)).map stripPunct).count (stripPunct x) :=
        count_le_count_map_py _ _ _

theorem C5_witness :
    ["https://a.com/x".data, "https://a.com/x".data].count "https://a.com/x".data ≤
      (filter_links ["https://a.com/x".data, "https://a.com/x".data]).count
        (stripPunct "https://a.com/x".data) :=
  (C5_order_no_dedup _).2 _ (by decide)

/-- C9: `filter_links` is idempotent: applying it to its own output
returns that output unchanged. -/
theorem C9_filter_links_idempotent (links : List PStr) :
    filter_links (filter_links links) = filter_links links := by
  have hmem : ∀ x ∈ filter_links links, (!isSocial x) = true ∧ stripPunct x = x := by
    intro x hx
    rw [filter_links_eq] at hx
    rcases List.mem_map.mp hx with ⟨y, hy, rfl⟩
    rcases List.mem_filter.mp hy with ⟨-, hky⟩
    have hy' : isSocial y = false := by simpa using hky
    exact ⟨by simp [isSocial_stripPunct hy'], pyStrip_idem punctB y⟩
  rw [filter_links_eq (filter_links links)]
  rw [List.filter_eq_self.mpr (fun a ha => (hmem a ha).1)]
  calc (filter_links links).map stripPunct
      = (filter_links links).map id :=
        List.map_congr_left (fun a ha => (hmem a ha).2)
    _ = filter_links links := List.map_id _

theorem classify_video_iff (url : PStr) :
    classify url = AcqPath.video ↔
      (pyIn "youtube.com".data url || pyIn "youtu.be".data url) = true := by
  unfold classify
  by_cases h : (pyIn "youtube.com".data url || pyIn "youtu.be".data url) = true
  · simp [h]
  · simp [h]

/-- C1 (counterexample to the claim as stated): the claim's second
clause says a URL is treated as video exactly when the URL's HOST
matches a known video-platform pattern; but the code tests substring
containment over the whole URL, so
`https://example.com/page?ref=youtube.com` — whose host
`example.com` matches no video-platform pattern — is classified as
video. -/
theorem C1_counterexample :
    classify "https://example.com/page?ref=youtube.com".data = AcqPath.video ∧
      isVideoPlatformHost
        (urlHost "https://example.com/page?ref=youtube.com".data) = false := by
  decide

/-- C1 (amended): for every URL string containing `youtube.com`,
`load_docs` attempts the video acquisition path and never the
generic-webpage path; and the classification rule is substring
containment, not host matching: a URL is treated as video exactly
when it contains `youtube.com` or `youtu.be` anywhere in the URL
string. -/
theorem C1_video_dispatch (url : PStr) :
    (pyIn "youtube.com".data url = true →
      classify url = AcqPath.video ∧
        ∀ env, (load_docs url env).videoTried = true ∧
          (load_docs url env).webTried = false) ∧
      (classify url = AcqPath.video ↔
        (pyIn "youtube.com".data url || pyIn "youtu.be".data url) = true) := by
  refine ⟨fun h => ?_, classify_video_iff url⟩
  have hc : classify url = AcqPath.video := by
    rw [classify_video_iff, h, Bool.true_or]
  refine ⟨hc, fun env => ?_⟩
  unfold load_docs
  rw [hc]
  cases env.primary with
  | some ds => exact ⟨rfl, rfl⟩
  | none =>
    cases env.fallback with
    | some out =>
      by_cases hyt : pyStrip pyIsSpace out = []
      · simp [hyt]
      · simp [hyt]
    | none => exact ⟨rfl, rfl⟩

theorem C1_witness :
    classify "https://www.youtube.com/watch?v=abc".data = AcqPath.video ∧
      (load_docs "https://www.youtube.com/watch?v=abc".data
          ⟨none, some "A Title".data, none⟩).videoTried = true ∧
      (load_docs "https://www.youtube.com/watch?v=abc".data
          ⟨none, some "A Title".data, none⟩).webTried = false :=
  ⟨((C1_video_dispatch _).1 (by decide)).1,
   ((C1_video_dispatch _).1 (by decide)).2 ⟨none, some "A Title".data, none⟩⟩

/-- C2: for every video URL (submitted non-blank and accepted by the
validator) for which the primary structured loader raises and the
command-line fallback fails to produce text (it raises, or its
captured stdout strips to nothing), `load_docs` returns no documents,
the run shows the acquisition-failure message, and no summary is
produced or shown. -/
theorem C2_double_failure (url : PStr) (opts : Options) (env : RunEnv)
    (hvid : classify url = AcqPath.video)
    (hurl : pyStrip pyIsSpace url ≠ [])
    (hvalid : env.urlValid = true)
    (hp : env.load.primary = none)
    (hf : env.load.fallback = none ∨
      ∃ out, env.load.fallback = some out ∧ pyStrip pyIsSpace out = []) :
    (load_docs url env.load).docs = none ∧
      (runApp url opts env).acqFailureShown = true ∧
      (runApp url opts env).summaryShown = none := by
  have hdocs : (load_docs url env.load).docs = none := by
    unfold load_docs
    rw [hvid, hp]
    rcases hf with hf | ⟨out, hfo, hso⟩
    · rw [hf]
    · rw [hfo]
      simp [hso]
  refine ⟨hdocs, ?_, ?_⟩ <;> simp [runApp, hurl, hvalid, hdocs]

theorem C2_witness :
    (load_docs "https://youtube.com/watch?v=abc".data ⟨none, none, none⟩).docs = none ∧
      (runApp "https://youtube.com/watch?v=abc".data ⟨true⟩
        ⟨true, ⟨none, none, none⟩, some "a summary".data⟩).acqFailureShown = true ∧
      (runApp "https://youtube.com/watch?v=abc".data ⟨true⟩
        ⟨true, ⟨none, none, none⟩, some "a summary".data⟩).summaryShown = none :=
  C2_double_failure _ ⟨true⟩ ⟨true, ⟨none, none, none⟩, some "a summary".data⟩
    (by decide) (by decide) rfl rfl (Or.inl rfl)

/-- C6: for every video URL where the primary structured loader
raises and the fallback tool's captured stdout strips to a non-empty
text, `load_docs` returns exactly one `Document` whose content is
that stripped stdout and whose `source` metadata is the submitted
URL. -/
theorem C6_fallback_document (url : PStr) (env : LoadEnv) (out : PStr)
    (hvid : classify url = AcqPath.video)
    (hp : env.primary = none)
    (hf : env.fallback = some out)
    (hne : pyStrip pyIsSpace out ≠ []) :
    (load_docs url env).docs = some [⟨pyStrip pyIsSpace out, url⟩] := by
  unfold load_docs
  rw [hvid, hp, hf]
  simp [hne]

theorem C6_witness :
    (load_docs "https://youtu.be/abc".data
        ⟨none, some "  A Title\nA description ".data, none⟩).docs =
      some [⟨pyStrip pyIsSpace "  A Title\nA description ".data,
        "https://youtu.be/abc".data⟩] :=
  C6_fallback_document _ _ _ (by decide) rfl rfl (by decide)

/-- C7: for every submitted input string that is empty or
whitespace-only, or that the URL-format validator rejects, the run
shows an inline error, never calls the acquirer (`load_docs`), and
produces no summary. -/
theorem C7_invalid_input_rejected (url : PStr) (opts : Options) (env : RunEnv)
    (h : pyStrip pyIsSpace url = [] ∨ env.urlValid = false) :
    (runApp url opts env).inlineErrorShown = true ∧
      (runApp url opts env).acquirerCalled = false ∧
      (runApp url opts env).summaryShown = none := by
  rcases h with h | h
  · simp [runApp, h]
  · by_cases he : pyStrip pyIsSpace url = []
    · simp [runApp, he]
    · simp [runApp, he, h]

theorem C7_witness :
    (runApp "   ".data ⟨true⟩ ⟨true, ⟨none, none, none⟩, none⟩).inlineErrorShown = true ∧
      (runApp "   ".data ⟨true⟩ ⟨true, ⟨none, none, none⟩, none⟩).acquirerCalled = false ∧
      (runApp "   ".data ⟨true⟩ ⟨true, ⟨none, none, none⟩, none⟩).summaryShown = none :=
  C7_invalid_input_rejected _ ⟨true⟩ ⟨true, ⟨none, none, none⟩, none⟩ (Or.inl (by decide))

/-- C8: whenever a run displays a summary, the displayed word-count
statistic equals the number of whitespace-delimited tokens of that
summary string (the length of the list obtained by splitting it on
whitespace). -/
theorem C8_word_count_stat (url : PStr) (opts : Options) (env : RunEnv) (s : PStr)
    (h : (runApp url opts env).summaryShown = some s) :
    (runApp url opts env).wordCountStat = some (countTokens s) := by
  by_cases h1 : pyStrip pyIsSpace url = []
  · simp [runApp, h1] at h
  · by_cases h2 : env.urlValid = true
    · cases hd : (load_docs url env.load).docs with
      | none => simp [runApp, h1, h2, hd] at h
      | some ds =>
        cases ds with
        | nil => simp [runApp, h1, h2, hd] at h
        | cons d rest =>
          cases hc : env.chain with
          | none => simp [runApp, h1, h2, hd, hc] at h
          | some out =>
            have hs : out = s := by
              simpa [runApp, h1, h2, hd, hc] using h
            subst hs
            simp [runApp, h1, h2, hd, hc, pySplit_length_countTokens]
    · have h2' : env.urlValid = false := by simpa using h2
      simp [runApp, h1, h2'] at h

theorem C8_witness :
    (runApp "https://example.org/a".data ⟨true⟩
        ⟨true, ⟨none, none, some [⟨"see https://example.org/b ok".data,
          "https://example.org/a".data⟩]⟩,
         some "Hello  world".data⟩).wordCountStat =
      some (countTokens "Hello  world".data) :=
  C8_word_count_stat _ _ _ _ (by decide)

/-- C10: when the link-inclusion toggle is off, the extracted link
list is never passed through `filter_links`: the displayed link-count
statistic is the number of raw regex-extracted links (denylisted and
punctuation-carrying entries included), while the links themselves
are not displayed. -/
theorem C10_raw_link_count (url : PStr) (opts : Options) (env : RunEnv)
    (hurl : pyStrip pyIsSpace url ≠ [])
    (hvalid : env.urlValid = true)
    (hshow : opts.showLinks = false)
    (d : Document) (ds : List Document)
    (hd : (load_docs url env.load).docs = some (d :: ds))
    (s : PStr) (hc : env.chain = some s) :
    (runApp url opts env).linkCountStat =
        some (findall (joinTexts (d :: ds))).length ∧
      (runApp url opts env).linksDisplayed = none := by
  constructor
  · simp [runApp, hurl, hvalid, hshow, hd, hc]
    by_cases hE : findall (joinTexts (d :: ds)) = []
    · simp [hE]
    · simp [hE]
  · simp [runApp, hurl, hvalid, hshow, hd, hc]

theorem C10_witness :
    (runApp "https://example.org/a".data ⟨false⟩
        ⟨true, ⟨none, none,
          some [⟨"read https://facebook.com/x. and https://good.org/y then".data,
            "https://example.org/a".data⟩]⟩,
         some "a summary".data⟩).linkCountStat =
        some (findall (joinTexts
          [⟨"read https://facebook.com/x. and https://good.org/y then".data,
            "https://example.org/a".data⟩])).length ∧
      (runApp "https://example.org/a".data ⟨false⟩
        ⟨true, ⟨none, none,
          some [⟨"read https://facebook.com/x. and https://good.org/y then".data,
            "https://example.org/a".data⟩]⟩,
         some "a summary".data⟩).linksDisplayed = none :=
  C10_raw_link_count _ _ _ (by decide) rfl rfl _ _ rfl _ rfl

end Summarizer
